import Mathlib

/-!
Verification of the cross-catalog product matching pipeline
(`llm-matching.py` plus the two catalog extractors of the repository).

The Python code is shallowly embedded: dictionaries holding possibly-absent
or `None` fields become structures with `Option` fields, floating point
prices become exact rationals, formatted strings are built over `List Char`,
and the fallible parts (JSON deserialization, the external LLM call) are
modelled with `Option` / `Except` and explicit oracles.
-/

namespace BetterBasket

/-! ## Characters, digits and decimal strings -/

/-- ASCII digit test, matching the `\d` character class used by the Python
regexes of the source (`re` module, ASCII digits on these inputs). -/
def isAsciiDigit (c : Char) : Bool :=
  '0' ≤ c && c ≤ '9'

/-- Numeric value of a list of ASCII digit characters, most significant
first (the usual positional reading used by `int` / `float`). -/
def digitsToNat (ds : List Char) : ℕ :=
  ds.foldl (fun acc c => acc * 10 + (c.toNat - 48)) 0

/-- Fuel-driven conversion of a natural number to its decimal digits.
Structural recursion on the fuel keeps the definition kernel-reducible. -/
def natDigitsAux : ℕ → ℕ → List Char
  | 0, _ => []
  | fuel + 1, n =>
    if n < 10 then [Char.ofNat (48 + n)]
    else natDigitsAux fuel (n / 10) ++ [Char.ofNat (48 + n % 10)]

/-- Decimal string of a natural number (model of Python number formatting
for the integral part of a formatted float). -/
def natString (n : ℕ) : String :=
  String.mk (natDigitsAux (n + 1) n)

/-- Remove every occurrence of a (nonempty) pattern, replacing it by `rep`:
model of Python `str.replace`, which replaces all occurrences.  Fuel-driven
so that it evaluates inside the kernel. -/
def replaceListAux : ℕ → List Char → List Char → List Char → List Char
  | 0, s, _, _ => s
  | _ + 1, [], _, _ => []
  | fuel + 1, c :: rest, pat, rep =>
    if pat.isEmpty then c :: rest
    else if pat.isPrefixOf (c :: rest) then
      rep ++ replaceListAux fuel ((c :: rest).drop pat.length) pat rep
    else
      c :: replaceListAux fuel rest pat rep

/-- Model of Python `str.replace(pat, rep)` (all occurrences). -/
def pyReplace (s pat rep : String) : String :=
  String.mk (replaceListAux s.toList.length s.toList pat.toList rep.toList)

/-- Python truthiness of an optional string: `None` and `""` are falsy,
every other string is truthy. -/
def truthy : Option String → Bool
  | none => false
  | some s => !s.isEmpty

/-! ## Numeric parsing models (`int(...)`, `float(...)`, the size regex) -/

/-- Model of Python `int(s)` on a string: optional surrounding spaces,
optional sign, then at least one ASCII digit.  `none` models the
`ValueError` raised on any other shape. -/
def pyInt? (s : String) : Option ℤ :=
  let cs := (((s.toList.dropWhile (· == ' ')).reverse.dropWhile (· == ' ')).reverse)
  match cs with
  | '-' :: ds =>
    if ds ≠ [] ∧ ds.all isAsciiDigit then some (-(digitsToNat ds : ℤ)) else none
  | '+' :: ds =>
    if ds ≠ [] ∧ ds.all isAsciiDigit then some (digitsToNat ds : ℤ) else none
  | ds =>
    if ds ≠ [] ∧ ds.all isAsciiDigit then some (digitsToNat ds : ℤ) else none

/-- Value of an unsigned decimal literal `digits [ '.' digits ]` as used by
Python `float(...)` on the strings this pipeline produces.  `none` models a
`ValueError`. -/
def parseUnsignedFloat (cs : List Char) : Option ℚ :=
  let ds := cs.takeWhile isAsciiDigit
  let r1 := cs.dropWhile isAsciiDigit
  match r1 with
  | [] => if ds = [] then none else some (digitsToNat ds : ℚ)
  | '.' :: r2 =>
    let fs := r2.takeWhile isAsciiDigit
    let r3 := r2.dropWhile isAsciiDigit
    if r3 = [] ∧ (ds ≠ [] ∨ fs ≠ []) then
      some ((digitsToNat ds : ℚ) + (digitsToNat fs : ℚ) / 10 ^ fs.length)
    else none
  | _ => none

/-- Model of Python `float(s)` restricted to plain signed decimal literals
(the only shapes produced by `format_price_diff`).  `none` models a
`ValueError`. -/
def pyFloat? (s : String) : Option ℚ :=
  match s.toList with
  | '-' :: rest => (parseUnsignedFloat rest).map (fun q => -q)
  | '+' :: rest => parseUnsignedFloat rest
  | cs => parseUnsignedFloat cs

/-- Does a number (in the sense of the regex `(\d+(?:\.\d+)?|\.\d+)`)
start at the head of this character list? -/
def startsNumber : List Char → Bool
  | [] => false
  | c :: rest =>
    isAsciiDigit c ||
      (c == '.' && (match rest with
        | d :: _ => isAsciiDigit d
        | [] => false))

/-- Value of the regex match `(\d+(?:\.\d+)?|\.\d+)` anchored at the head
of the list (only called where `startsNumber` holds): greedy digits, then
an optional fractional part requiring at least one digit after the dot. -/
def numberAt (cs : List Char) : ℚ :=
  let ds := cs.takeWhile isAsciiDigit
  let r1 := cs.dropWhile isAsciiDigit
  match r1 with
  | '.' :: r2 =>
    let fs := r2.takeWhile isAsciiDigit
    if fs = [] then (digitsToNat ds : ℚ)
    else (digitsToNat ds : ℚ) + (digitsToNat fs : ℚ) / 10 ^ fs.length
  | _ => (digitsToNat ds : ℚ)

/-- Leftmost match of the regex `(\d+(?:\.\d+)?|\.\d+)` in the character
list, as a rational (the `float(...)` of the matched text). -/
def findNumber : List Char → Option ℚ
  | [] => none
  | c :: rest =>
    if startsNumber (c :: rest) then some (numberAt (c :: rest))
    else findNumber rest

/-- Embedding of `extract_numeric_value` (llm-matching.py, lines 39-45):
falsy input (`None` or `""`) gives `None`; otherwise the first decimal or
integer number found in the string, if any. -/
def extract_numeric_value : Option String → Option ℚ
  | none => none
  | some s => if s.isEmpty then none else findNumber s.toList

/-! ## Fixed-point formatting (`f"{v:.1f}"`, `f"{v:.2f}"`) -/

/-- Round half to even, the rounding used by Python float formatting
(stated on exact rationals; the concrete values exercised by the claims
are exactly representable, where binary and decimal rounding agree). -/
def roundHalfEven (x : ℚ) : ℤ :=
  if x - ⌊x⌋ = 1 / 2 then (if ⌊x⌋ % 2 = 0 then ⌊x⌋ else ⌊x⌋ + 1)
  else round x

/-- Model of Python `f"{q:.df}"` for a nonnegative rational `q`: the value
is rounded to `d` decimal places and printed with exactly `d` digits after
the dot. -/
def fmtFixed (q : ℚ) (d : ℕ) : String :=
  let n : ℕ := (roundHalfEven (q * 10 ^ d)).toNat
  let ip := natString (n / 10 ^ d)
  let fp := natString (n % 10 ^ d)
  let fpPad := String.mk (List.replicate (d - fp.length) '0') ++ fp
  if d = 0 then ip else ip ++ "." ++ fpPad

/-- Embedding of `format_price_diff` (llm-matching.py, lines 24-28):
sign-prefixed currency or percentage formatting of a price difference. -/
def format_price_diff (value : ℚ) (is_percentage : Bool) : String :=
  if is_percentage then
    if 0 ≤ value then "+" ++ fmtFixed value 1 ++ "%"
    else "-" ++ fmtFixed |value| 1 ++ "%"
  else
    if 0 ≤ value then "+$" ++ fmtFixed value 2
    else "-$" ++ fmtFixed |value| 2

/-! ## Data model -/

/-- A normalized product record, as produced by the two catalog extractors
and consumed by `llm-matching.py`.  Every field that can be absent or
`None` in the Python dictionaries is an `Option`.  Store A records carry a
`product_id`, store B records carry a `sku`. -/
structure Product where
  product_name : String
  brand : Option String
  product_id : Option String
  sku : Option String
  price : Option ℚ
  size : Option String
  quantity : Option String
deriving DecidableEq

/-- A fully assembled match record (the dictionary built at
llm-matching.py lines 149-156). -/
structure MatchRecord where
  product_a : Product
  product_b : Product
  price_a : ℚ
  price_b : ℚ
  price_diff : String
  price_diff_percent : String
deriving DecidableEq

/-! ## Post-match validator (`filter_matches`) -/

/-- The size-mismatch rejection test of `filter_matches` (llm-matching.py,
lines 188-194).  Note the Python float truthiness in
`if size_a and size_b and size_a != size_b`: an extracted magnitude of `0`
is falsy and never triggers a rejection. -/
def sizeConflict (m : MatchRecord) : Bool :=
  truthy m.product_a.size && truthy m.product_b.size &&
    (match extract_numeric_value m.product_a.size,
           extract_numeric_value m.product_b.size with
     | some a, some b => a ≠ 0 && b ≠ 0 && a ≠ b
     | _, _ => false)

/-- The quantity-mismatch rejection test of `filter_matches`
(llm-matching.py, lines 197-206); a `ValueError` from `int(...)` on either
side skips the check. -/
def qtyConflict (m : MatchRecord) : Bool :=
  truthy m.product_a.quantity && truthy m.product_b.quantity &&
    (match pyInt? (m.product_a.quantity.getD ""),
           pyInt? (m.product_b.quantity.getD "") with
     | some x, some y => x ≠ y
     | _, _ => false)

/-- Embedding of `filter_matches` (llm-matching.py, lines 178-212): keep
the input order, dropping records with a size or quantity conflict. -/
def filter_matches : List MatchRecord → List MatchRecord
  | [] => []
  | m :: rest =>
    if sizeConflict m then filter_matches rest
    else if qtyConflict m then filter_matches rest
    else m :: filter_matches rest

/-! ## JSON values and the matcher response protocol -/

/-- The JSON values `json.loads` can produce (numbers as exact rationals). -/
inductive Json where
  | null
  | bool (b : Bool)
  | num (q : ℚ)
  | str (s : String)
  | arr (elems : List Json)
  | obj (fields : List (String × Json))

/-- Is this JSON value an object (a Python `dict`)?  Only objects support
the `.get` attribute access performed on each returned pair. -/
def Json.isObj : Json → Bool
  | .obj _ => true
  | _ => false

/-- Python `find(c)`: index of the first occurrence, `-1` if absent. -/
def pyFind (cs : List Char) (c : Char) : Int :=
  match cs.findIdx? (· == c) with
  | some i => (i : Int)
  | none => -1

/-- Python `rfind(c)`: index of the last occurrence, `-1` if absent. -/
def pyRFind (cs : List Char) (c : Char) : Int :=
  match cs.reverse.findIdx? (· == c) with
  | some i => ((cs.length - 1 - i : ℕ) : Int)
  | none => -1

/-- Embedding of `extract_json_from_text` (llm-matching.py, lines 12-22).
The JSON deserializer itself (`json.loads`) is an external library function
and is passed as an oracle `loads`, returning `none` on a
`json.JSONDecodeError`.  The slice between the first `[` and the last `]`
is parsed; every failure path returns the empty array. -/
def extract_json_from_text (loads : List Char → Option Json) (text : List Char) : Json :=
  let json_start : Int := pyFind text '['
  let json_end : Int := pyRFind text ']' + 1
  if 0 ≤ json_start ∧ json_start + 1 < json_end then
    match loads ((text.drop json_start.toNat).take (json_end - json_start).toNat) with
    | some j => j
    | none => Json.arr []
  else Json.arr []

/-! ## Brand partitioner (`get_overlapping_brands_and_their_products`) -/

/-- A brand key is the Python value of the brand field of a product: a string, or
`None` (possible for store B records whose brand inference failed). -/
abbrev Brand := Option String

/-- One entry of the brand-partition dictionary. -/
structure BrandGroup where
  store_a_products : List Product
  store_b_products : List Product
deriving DecidableEq

/-- One step of the store A loop (llm-matching.py, lines 62-66): create the
brand entry when missing, then append the product to its store A list. -/
def addStoreA (m : Brand → Option BrandGroup) (p : Product) : Brand → Option BrandGroup :=
  fun b =>
    if b = p.brand then
      let g := (m p.brand).getD ⟨[], []⟩
      some ⟨g.store_a_products ++ [p], g.store_b_products⟩
    else m b

/-- The store A phase of the partitioner: the dictionary `store_a_brands`
after the first loop, represented as a map from brand keys to groups. -/
def groupStoreA (store_a_data : List Product) : Brand → Option BrandGroup :=
  store_a_data.foldl addStoreA (fun _ => none)

/-- State of the store B loop: the evolving dictionary plus the
`matching_brands` set (a set has no observable order, so a predicate). -/
structure PartitionState where
  map : Brand → Option BrandGroup
  matching : Brand → Bool

/-- One step of the store B loop (llm-matching.py, lines 69-75): products
whose brand is unknown to store A are ignored; otherwise the brand joins
`matching_brands` on its first store B product and the product is appended. -/
def addStoreB (st : PartitionState) (p : Product) : PartitionState :=
  match st.map p.brand with
  | none => st
  | some g =>
    { map := fun b =>
        if b = p.brand then some ⟨g.store_a_products, g.store_b_products ++ [p]⟩
        else st.map b
      matching := fun b =>
        if b = p.brand ∧ g.store_b_products = [] then true else st.matching b }

/-- Embedding of `get_overlapping_brands_and_their_products`
(llm-matching.py, lines 48-80) on already-loaded catalogs: the returned
dictionary, restricted to the brands of `matching_brands`, as a map.
(The file loading and the diagnostic print are I/O and are not modelled;
a loading failure returns the empty map in the source.) -/
def get_overlapping_brands_and_their_products
    (store_a_data store_b_data : List Product) : Brand → Option BrandGroup :=
  let st := store_b_data.foldl addStoreB ⟨groupStoreA store_a_data, fun _ => false⟩
  fun b => if st.matching b then st.map b else none

/-! ## Match assembler (`find_matching_product_ids_for_brand`, body) -/

/-- The store A lookup table, a dict comprehension keying each store A product by its product_id field
(llm-matching.py, line 85).  A Python dict comprehension keeps the last
record for a duplicated key. -/
def store_a_map (store_a_products : List Product) (k : Option String) : Option Product :=
  (store_a_products.filter (fun p => p.product_id == k)).getLast?

/-- The store B lookup table, keying each store B product by its sku field
(llm-matching.py, line 86). -/
def store_b_map (store_b_products : List Product) (k : Option String) : Option Product :=
  (store_b_products.filter (fun p => p.sku == k)).getLast?

/-- Python `dict.get` on a parsed JSON object field (last value wins for a
duplicated key, `None` when the field is missing). -/
def jsonGet (fields : List (String × Json)) (k : String) : Option Json :=
  ((fields.filter (fun kv => kv.1 == k)).getLast?).map (fun kv => kv.2)

/-- Model of the membership test plus indexing performed on a
`pair.get(...)` result against a per-store lookup table
(llm-matching.py, lines 138-140): a missing field or JSON `null` is
Python `None` and can match a `None` key; a JSON string is looked up
directly; a JSON number or boolean is hashable but can never equal a key
(keys are `None` or strings), so membership is `False`; a JSON array or
object is unhashable, so `product_a_id in store_a_map` raises a
`TypeError`, modelled as `Except.error`. -/
def resolveId (lookup : Option String → Option Product) :
    Option Json → Except Unit (Option Product)
  | none => .ok (lookup none)
  | some .null => .ok (lookup none)
  | some (.str s) => .ok (lookup (some s))
  | some (.num _) => .ok none
  | some (.bool _) => .ok none
  | some (.arr _) => .error ()
  | some (.obj _) => .error ()

/-- The match dictionary built for one resolved pair (llm-matching.py,
lines 143-156): price coercion with default `0`, the zero-guarded percent
difference, and the two formatted difference strings. -/
def mkMatch (product_a product_b : Product) : MatchRecord :=
  let price_a := product_a.price.getD 0
  let price_b := product_b.price.getD 0
  let store_b_price_diff_vs_store_a := price_b - price_a
  let store_b_price_diff_vs_store_a_percent :=
    if price_a = 0 then 0 else store_b_price_diff_vs_store_a / price_a * 100
  { product_a := product_a
    product_b := product_b
    price_a := price_a
    price_b := price_b
    price_diff := format_price_diff store_b_price_diff_vs_store_a false
    price_diff_percent := format_price_diff store_b_price_diff_vs_store_a_percent true }

/-- The pair loop of `find_matching_product_ids_for_brand` (llm-matching.py,
lines 134-157).  A non-object element raises an `AttributeError` at
`pair.get`, modelled as `Except.error`; the short-circuit
`if product_a_id in store_a_map and product_b_id in store_b_map` first
tests the store A id (raising on an unhashable value), and only when that
membership holds tests the store B id; a pair whose identifiers are not
both found is skipped silently. -/
def assembleMatches (store_a_products store_b_products : List Product) :
    List Json → Except Unit (List MatchRecord)
  | [] => .ok []
  | pair :: rest =>
    match pair with
    | .obj fields =>
      match resolveId (store_a_map store_a_products) (jsonGet fields "product_a_id") with
      | .error e => .error e
      | .ok none => assembleMatches store_a_products store_b_products rest
      | .ok (some product_a) =>
        match resolveId (store_b_map store_b_products) (jsonGet fields "product_b_id") with
        | .error e => .error e
        | .ok none => assembleMatches store_a_products store_b_products rest
        | .ok (some product_b) =>
          (assembleMatches store_a_products store_b_products rest).map
            (fun ms => mkMatch product_a product_b :: ms)
    | _ => .error ()

/-- The observable result of one matching task attempt whose LLM call
succeeded and produced the JSON array `pairs`: the assembled match list, or
the empty list when the loop raised (the `except Exception` handler at
llm-matching.py lines 172-176 breaks out and falls through to `return []`). -/
def taskResultOfPairs (store_a_products store_b_products : List Product)
    (pairs : List Json) : List MatchRecord :=
  match assembleMatches store_a_products store_b_products pairs with
  | .ok ms => ms
  | .error _ => []

/-! ## Retry loop of the matching task -/

/-- Outcome of one attempt body of `find_matching_product_ids_for_brand`:
a successful attempt resolving to a match list, an error classified as
transient (`ClientError`, `ServerError`, `APIError`), or any other
unexpected exception. -/
inductive AttemptOutcome where
  | ok (ms : List MatchRecord)
  | transient
  | unexpected
deriving DecidableEq

/-- The backoff delay `4 * (2 ** attempt)` (llm-matching.py, line 163). -/
def backoffWait (attempt : ℕ) : ℕ :=
  4 * 2 ^ attempt

/-- The retry loop `for attempt in range(3)` (llm-matching.py, lines
88-176), with the attempt body abstracted as an oracle.  Returns the
resolved match list, the number of attempts made, and the list of backoff
sleeps performed (a sleep happens only when `attempt < 2`). -/
def retryAttempts (call : ℕ → AttemptOutcome) :
    ℕ → ℕ → List ℕ → List MatchRecord × ℕ × List ℕ
  | attempt, 0, sleeps => ([], attempt, sleeps)
  | attempt, fuel + 1, sleeps =>
    match call attempt with
    | .ok ms => (ms, attempt + 1, sleeps)
    | .transient =>
      if attempt < 2 then
        retryAttempts call (attempt + 1) fuel (sleeps ++ [backoffWait attempt])
      else ([], attempt + 1, sleeps)
    | .unexpected => ([], attempt + 1, sleeps)

/-- The whole task seen through its retry behaviour: three attempts
starting at attempt 0, resolving to `[]` when all fail. -/
def find_matching_product_ids_for_brand (call : ℕ → AttemptOutcome) :
    List MatchRecord × ℕ × List ℕ :=
  retryAttempts call 0 3 []

/-! ## Ranker (the sort at llm-matching.py, line 268) -/

/-- The characters removed from `price_diff` by
`.replace('$', '').replace('+', '')` before `float(...)`. -/
def stripCurrencyChars (s : String) : String :=
  String.mk (s.toList.filter (fun c => !(c == '$' || c == '+')))

/-- The sort key `abs(float(m['price_diff'].replace('$', '').replace('+', '')))`.
On the strings `format_price_diff` produces the parse always succeeds; the
`getD 0` default is never exercised in the pipeline (Python would raise a
`ValueError` there). -/
def rankKey (m : MatchRecord) : ℚ :=
  |(pyFloat? (stripCurrencyChars m.price_diff)).getD 0|

/-- The descending comparison used by `sort(key=..., reverse=True)`. -/
def rankRel (a b : MatchRecord) : Prop :=
  rankKey b ≤ rankKey a

instance : DecidableRel rankRel :=
  fun a b => inferInstanceAs (Decidable (rankKey b ≤ rankKey a))

instance : IsTotal MatchRecord rankRel :=
  ⟨fun a b => le_total (rankKey b) (rankKey a)⟩

instance : IsTrans MatchRecord rankRel :=
  ⟨fun _ _ _ h1 h2 => le_trans h2 h1⟩

/-- Embedding of `filtered_matches.sort(key=..., reverse=True)`: Python
`list.sort` is a stable sort, and with `reverse=True` it is a stable sort
by the reversed comparison (ties keep input order, they are not reversed).
Any stable sort computes the same list; we use insertion sort. -/
def rankMatches (l : List MatchRecord) : List MatchRecord :=
  l.insertionSort rankRel

/-! ## Pipeline persistence (`find_all_matching_products_and_compare_prices`) -/

/-- The path of the raw-match artifact: output_path with ".json" replaced by "_no_cleanup.json" (line 261). -/
def noCleanupPath (output_path : String) : String :=
  pyReplace output_path ".json" "_no_cleanup.json"

/-- The path of the recovery artifact: output_path with ".json" replaced by "_error.json" (line 279). -/
def errorPath (output_path : String) : String :=
  pyReplace output_path ".json" "_error.json"

/-- Where the top-level `try` block of
`find_all_matching_products_and_compare_prices` can be left: it either
runs to completion, or an exception escapes before the raw-match save, or
an exception escapes after it. -/
inductive RunOutcome where
  | ok
  | failBeforeRawSave
  | failAfterRawSave
deriving DecidableEq

/-- Does the run end in the reported-failure state (the `except` handler at
llm-matching.py lines 275-280, which prints the error)? -/
def runReportsFailure : RunOutcome → Bool
  | .ok => false
  | _ => true

/-- The JSON artifacts written by one run of
`find_all_matching_products_and_compare_prices` (llm-matching.py, lines
214-280), as `(path, contents)` pairs in write order, given the matches
accumulated in `all_matches` when the `try` block is left.  On the success
path the raw list and then the filtered, ranked list are saved; on an
uncaught failure the handler writes the accumulated matches to the error
path — but only if `all_matches` is non-empty (`if all_matches:`). -/
def pipelineWrites (output_path : String) (all_matches : List MatchRecord) :
    RunOutcome → List (String × List MatchRecord)
  | .ok =>
    [(noCleanupPath output_path, all_matches),
     (output_path, rankMatches (filter_matches all_matches))]
  | .failBeforeRawSave =>
    if all_matches.isEmpty then [] else [(errorPath output_path, all_matches)]
  | .failAfterRawSave =>
    (noCleanupPath output_path, all_matches) ::
      (if all_matches.isEmpty then [] else [(errorPath output_path, all_matches)])

/-! ## Store A brand normalization (extractor, for the C3 sentinel) -/

/-- Python strip of the apostrophe character: remove it from both ends. -/
def pyStripQuotes (s : String) : String :=
  String.mk (((s.toList.dropWhile (· == '\'')).reverse.dropWhile (· == '\'')).reverse)

/-- Python `str.upper()` on the ASCII brand strings of this data set. -/
def pyUpper (s : String) : String :=
  String.mk (s.toList.map Char.toUpper)

/-- Embedding of the brand normalization of the store A extractor
(get-target-fields-for-grocery-store-a.py, lines 51-54): a missing brand
becomes the explicit sentinel `"N/A"`, a present brand is stripped of
apostrophes and uppercased. -/
def normalize_brand_a : Option String → String
  | none => "N/A"
  | some b => pyUpper (pyStripQuotes b)

/-! ## Concrete example data used by the witnesses and counterexamples -/

/-- Store A example product: "Acme Widget 20oz", id `a1`, price 5. -/
def exProdA : Product :=
  { product_name := "Acme Widget 20oz", brand := some "ACME", product_id := some "a1"
    sku := none, price := some 5, size := some "20 oz", quantity := none }

/-- Store B example product: same widget, sku `b1`, price 6. -/
def exProdB : Product :=
  { product_name := "Acme Widget 20oz", brand := some "ACME", product_id := none
    sku := some "b1", price := some 6, size := some "20 oz", quantity := none }

/-- A well-formed pair object returned by the matcher, resolving to
`exProdA` and `exProdB`. -/
def exGoodPair : Json :=
  .obj [("product_a_id", .str "a1"), ("product_b_id", .str "b1")]

/-- A malformed element of a matcher response array: a bare string instead
of an object. -/
def exBadPair : Json :=
  .str "not a pair object"

/-- A pair object whose store A identifier is hallucinated (absent from
the lookup tables). -/
def exUnknownPair : Json :=
  .obj [("product_a_id", .str "zz"), ("product_b_id", .str "b1")]

/-- A match record whose product sizes are `"20 oz"` and `"16 oz"`. -/
def exMatchSize20v16 : MatchRecord :=
  { product_a := { exProdA with size := some "20 oz" }
    product_b := { exProdB with size := some "16 oz" }
    price_a := 5, price_b := 6, price_diff := "+$1.00", price_diff_percent := "+20.0%" }

/-- A match record whose product sizes are both `"20 oz"`. -/
def exMatchSize20v20 : MatchRecord :=
  { product_a := { exProdA with size := some "20 oz" }
    product_b := { exProdB with size := some "20 oz" }
    price_a := 5, price_b := 6, price_diff := "+$1.00", price_diff_percent := "+20.0%" }

/-- A match record with no size on the store A side and `"20 oz"` on the
store B side. -/
def exMatchSizeNone : MatchRecord :=
  { product_a := { exProdA with size := none }
    product_b := { exProdB with size := some "20 oz" }
    price_a := 5, price_b := 6, price_diff := "+$1.00", price_diff_percent := "+20.0%" }

/-- A match record whose product sizes are `"0 oz"` and `"16 oz"`: numeric
extraction succeeds on both sides (0 and 16) and the magnitudes differ. -/
def exMatchSize0v16 : MatchRecord :=
  { product_a := { exProdA with size := some "0 oz" }
    product_b := { exProdB with size := some "16 oz" }
    price_a := 5, price_b := 6, price_diff := "+$1.00", price_diff_percent := "+20.0%" }

/-- A validated match record with `price_diff` string of absolute value 1. -/
def exRank1 : MatchRecord :=
  { product_a := exProdA, product_b := exProdB, price_a := 5, price_b := 6
    price_diff := "+$1.00", price_diff_percent := "+20.0%" }

/-- First record with absolute price difference 5 (positive). -/
def exRank5a : MatchRecord :=
  { product_a := exProdA, product_b := exProdB, price_a := 1, price_b := 6
    price_diff := "+$5.00", price_diff_percent := "+500.0%" }

/-- Second record with absolute price difference 5 (negative difference,
distinct from `exRank5a`). -/
def exRank5b : MatchRecord :=
  { product_a := exProdA, product_b := exProdB, price_a := 6, price_b := 1
    price_diff := "-$5.00", price_diff_percent := "-83.3%" }

/-- A record with absolute price difference 2. -/
def exRank2 : MatchRecord :=
  { product_a := exProdA, product_b := exProdB, price_a := 5, price_b := 7
    price_diff := "+$2.00", price_diff_percent := "+40.0%" }

/-- Store A product priced 10.00. -/
def exPriceA10 : Product := { exProdA with price := some 10 }

/-- Store B product priced 12.50. -/
def exPriceB125 : Product := { exProdB with price := some (25 / 2) }

/-- Store A product priced 12.50. -/
def exPriceA125 : Product := { exProdA with price := some (25 / 2) }

/-- Store B product priced 10.00. -/
def exPriceB10 : Product := { exProdB with price := some 10 }

/-- Store A product priced 0. -/
def exPriceA0 : Product := { exProdA with price := some 0 }

/-- A product record whose brand value is absent (`None`). -/
def exProdNoBrand : Product := { exProdA with brand := none, product_id := some "a2" }

/-! ## Helper lemmas -/

/-- The function `filter_matches` is the order-preserving filter keeping exactly the
records with neither a size conflict nor a quantity conflict. -/
theorem filter_matches_eq_filter (ms : List MatchRecord) :
    filter_matches ms = ms.filter (fun m => !(sizeConflict m || qtyConflict m)) := by
  induction ms with
  | nil => rfl
  | cons m rest ih =>
    by_cases hs : sizeConflict m <;> by_cases hq : qtyConflict m <;>
      simp [filter_matches, hs, hq, ih]

/-- Successful numeric extraction forces the size string to be truthy. -/
theorem truthy_of_extract_some {o : Option String} {x : ℚ}
    (h : extract_numeric_value o = some x) : truthy o = true := by
  match o with
  | none => simp [extract_numeric_value] at h
  | some s =>
    by_cases he : s.isEmpty
    · simp [extract_numeric_value, he] at h
    · simp [truthy, he]

/-- The size-conflict test fires exactly when extraction succeeds on both
sides with two nonzero magnitudes that differ (the nonzero requirement is
the Python float truthiness of `if size_a and size_b and ...`). -/
theorem sizeConflict_iff (m : MatchRecord) :
    sizeConflict m = true ↔
      ∃ x y, extract_numeric_value m.product_a.size = some x ∧
        extract_numeric_value m.product_b.size = some y ∧
        x ≠ 0 ∧ y ≠ 0 ∧ x ≠ y := by
  constructor
  · intro h
    simp only [sizeConflict, Bool.and_eq_true] at h
    obtain ⟨⟨_, _⟩, hm⟩ := h
    rcases hx : extract_numeric_value m.product_a.size with _ | x
    · rw [hx] at hm; simp at hm
    rcases hy : extract_numeric_value m.product_b.size with _ | y
    · rw [hx, hy] at hm; simp at hm
    rw [hx, hy] at hm
    simp only [Bool.and_eq_true, decide_eq_true_eq] at hm
    exact ⟨x, y, rfl, rfl, hm.1.1, hm.1.2, hm.2⟩
  · rintro ⟨x, y, hx, hy, hx0, hy0, hxy⟩
    have ta := truthy_of_extract_some hx
    have tb := truthy_of_extract_some hy
    simp [sizeConflict, ta, tb, hx, hy, hx0, hy0, hxy]

/-- If the size check cannot even compare two magnitudes (absent or empty
size, or failed extraction, on either side), no size conflict is reported. -/
theorem sizeConflict_eq_false_of_skip {m : MatchRecord}
    (h : truthy m.product_a.size = false ∨ truthy m.product_b.size = false ∨
      extract_numeric_value m.product_a.size = none ∨
      extract_numeric_value m.product_b.size = none) :
    sizeConflict m = false := by
  cases hc : sizeConflict m
  · rfl
  · exfalso
    obtain ⟨x, y, hx, hy, -, -, -⟩ := (sizeConflict_iff m).mp hc
    rcases h with h | h | h | h
    · rw [truthy_of_extract_some hx] at h; exact absurd h (by simp)
    · rw [truthy_of_extract_some hy] at h; exact absurd h (by simp)
    · rw [hx] at h; exact Option.some_ne_none x h
    · rw [hy] at h; exact Option.some_ne_none y h

/-! ## Claim theorems -/

/-- C1 (counterexample): the claim says a record is removed whenever
numeric extraction succeeds on both size fields with differing magnitudes.
For sizes `"0 oz"` and `"16 oz"` extraction succeeds with 0 and 16, the
magnitudes differ, yet `filter_matches` keeps the record: the extracted 0
is falsy in `if size_a and size_b and size_a != size_b`. -/
theorem C1_counterexample :
    exMatchSize0v16.product_a.size = some "0 oz" ∧
    exMatchSize0v16.product_b.size = some "16 oz" ∧
    extract_numeric_value (some "0 oz") = some 0 ∧
    extract_numeric_value (some "16 oz") = some 16 ∧
    (0 : ℚ) ≠ 16 ∧
    filter_matches [exMatchSize0v16] = [exMatchSize0v16] := by
  with_unfolding_all decide

/-- C1 (amended): `filter_matches` removes a record on size exactly when
extraction succeeds on both sides with two nonzero magnitudes that differ;
when either size is absent or extraction fails on either side the size
check is skipped and the record is kept (unless the quantity check rejects
it).  The three P5 examples behave as the spec states. -/
theorem C1_size_filter :
    (∀ ms : List MatchRecord,
      filter_matches ms = ms.filter (fun m => !(sizeConflict m || qtyConflict m)))
  ∧ (∀ m : MatchRecord, sizeConflict m = true ↔
      ∃ x y, extract_numeric_value m.product_a.size = some x ∧
        extract_numeric_value m.product_b.size = some y ∧
        x ≠ 0 ∧ y ≠ 0 ∧ x ≠ y)
  ∧ (∀ (ms : List MatchRecord) (m : MatchRecord), sizeConflict m = true →
      m ∉ filter_matches ms)
  ∧ (∀ (ms : List MatchRecord) (m : MatchRecord),
      (truthy m.product_a.size = false ∨ truthy m.product_b.size = false ∨
        extract_numeric_value m.product_a.size = none ∨
        extract_numeric_value m.product_b.size = none) →
      qtyConflict m = false → m ∈ ms → m ∈ filter_matches ms)
  ∧ filter_matches [exMatchSize20v16] = []
  ∧ filter_matches [exMatchSize20v20] = [exMatchSize20v20]
  ∧ filter_matches [exMatchSizeNone] = [exMatchSizeNone] := by
  refine ⟨filter_matches_eq_filter, sizeConflict_iff, ?_, ?_, ?_, ?_, ?_⟩
  · intro ms m hs hmem
    rw [filter_matches_eq_filter] at hmem
    have := (List.mem_filter.mp hmem).2
    simp [hs] at this
  · intro ms m hskip hq hmem
    rw [filter_matches_eq_filter]
    exact List.mem_filter.mpr ⟨hmem, by
      simp [sizeConflict_eq_false_of_skip hskip, hq]⟩
  · with_unfolding_all decide
  · with_unfolding_all decide
  · with_unfolding_all decide

/-- C1 (witness): the amended theorem applied to the concrete examples:
the `"20 oz"` vs `"16 oz"` record is rejected, the record with one absent
size is kept. -/
theorem C1_size_filter_witness :
    exMatchSize20v16 ∉ filter_matches [exMatchSize20v16] ∧
    exMatchSizeNone ∈ filter_matches [exMatchSizeNone] :=
  ⟨C1_size_filter.2.2.1 [exMatchSize20v16] exMatchSize20v16
      (by with_unfolding_all decide),
   C1_size_filter.2.2.2.1 [exMatchSizeNone] exMatchSizeNone
      (Or.inl (by with_unfolding_all decide))
      (by with_unfolding_all decide)
      (List.mem_singleton.mpr rfl)⟩

/-- Every match list assembled from a JSON array containing an element
that is not an object resolves to an error (the `AttributeError` raised at
`pair.get` on the first such element). -/
theorem assembleMatches_error_of_nonObj (A B : List Product) :
    ∀ pairs : List Json, (∃ e ∈ pairs, e.isObj = false) →
      assembleMatches A B pairs = .error () := by
  intro pairs
  induction pairs with
  | nil => rintro ⟨e, he, -⟩; exact absurd he (List.not_mem_nil e)
  | cons p rest ih =>
    rintro ⟨e, he, hbad⟩
    match p with
    | .null | .bool _ | .num _ | .str _ | .arr _ => rfl
    | .obj fields =>
      have hrest : ∃ e ∈ rest, e.isObj = false := by
        rcases List.mem_cons.mp he with rfl | hm
        · exact absurd hbad (by simp [Json.isObj])
        · exact ⟨e, hm, hbad⟩
      show assembleMatches A B (Json.obj fields :: rest) = .error ()
      rw [assembleMatches]
      rcases ha : resolveId (store_a_map A) (jsonGet fields "product_a_id") with e | _ | pa <;>
        rcases hb : resolveId (store_b_map B) (jsonGet fields "product_b_id") with e2 | _ | pb <;>
        simp [ha, hb, ih hrest, Except.map]

/-- C10: if the JSON array extracted from the matcher response contains
any element that is not an object, the attribute-access failure is caught
by the catch-all handler and the whole task resolves to the empty list:
every pair for that brand is discarded, including records already
assembled from well-formed pairs earlier in the array. -/
theorem C10_nonobject_element_discards_all :
    ∀ (store_a_products store_b_products : List Product) (pairs : List Json),
      (∃ e ∈ pairs, e.isObj = false) →
      taskResultOfPairs store_a_products store_b_products pairs = [] := by
  intro A B pairs h
  unfold taskResultOfPairs
  rw [assembleMatches_error_of_nonObj A B pairs h]

/-- C10 (witness): with the good pair alone the task assembles one full
match record, but appending a bare-string element makes the same task
resolve to the empty list. -/
theorem C10_nonobject_element_discards_all_witness :
    taskResultOfPairs [exProdA] [exProdB] [exGoodPair, exBadPair] = [] ∧
    taskResultOfPairs [exProdA] [exProdB] [exGoodPair] = [mkMatch exProdA exProdB] :=
  ⟨C10_nonobject_element_discards_all [exProdA] [exProdB] [exGoodPair, exBadPair]
      ⟨exBadPair, by simp, by with_unfolding_all decide⟩,
   by with_unfolding_all decide⟩

/-- A successful lookup in the store A table returns a member of the
store A candidate list. -/
theorem store_a_map_mem {A : List Product} {k : Option String} {p : Product}
    (h : store_a_map A k = some p) : p ∈ A :=
  List.mem_of_mem_filter (List.mem_of_getLast?_eq_some h)

/-- A successful lookup in the store B table returns a member of the
store B candidate list. -/
theorem store_b_map_mem {B : List Product} {k : Option String} {p : Product}
    (h : store_b_map B k = some p) : p ∈ B :=
  List.mem_of_mem_filter (List.mem_of_getLast?_eq_some h)

/-- An identifier resolution that finds a product did so through the
lookup table at some key. -/
theorem resolveId_ok_some {lookup : Option String → Option Product}
    {v : Option Json} {p : Product}
    (h : resolveId lookup v = .ok (some p)) : ∃ k, lookup k = some p := by
  match v with
  | none => exact ⟨none, by simpa [resolveId] using h⟩
  | some .null => exact ⟨none, by simpa [resolveId] using h⟩
  | some (.str s) => exact ⟨some s, by simpa [resolveId] using h⟩
  | some (.num q) => simp [resolveId] at h
  | some (.bool b) => simp [resolveId] at h
  | some (.arr es) => simp [resolveId] at h
  | some (.obj fs) => simp [resolveId] at h

/-- C5: every match record assembled from a brand partition resolves both
of its products out of the per-store lookup tables, so both identifiers
appear in the original candidate lists of the partition; and a pair object
whose store A identifier resolves to no table entry — or whose store A
identifier is found but whose store B identifier resolves to no entry —
contributes no match record and no error: dropping it leaves the assembly
of the remaining pairs unchanged.  (An unhashable identifier value, a JSON
array or object, is not a silent drop: it raises in the membership test
and the task discards the whole brand, as in C10.) -/
theorem C5_assembly_soundness :
    (∀ (A B : List Product) (pairs : List Json) (ms : List MatchRecord),
      assembleMatches A B pairs = .ok ms →
      ∀ m ∈ ms, m.product_a ∈ A ∧ m.product_b ∈ B)
  ∧ (∀ (A B : List Product) (pre post : List Json) (fields : List (String × Json)),
      resolveId (store_a_map A) (jsonGet fields "product_a_id") = .ok none →
      assembleMatches A B (pre ++ Json.obj fields :: post) =
        assembleMatches A B (pre ++ post))
  ∧ (∀ (A B : List Product) (pre post : List Json) (fields : List (String × Json))
        (pa : Product),
      resolveId (store_a_map A) (jsonGet fields "product_a_id") = .ok (some pa) →
      resolveId (store_b_map B) (jsonGet fields "product_b_id") = .ok none →
      assembleMatches A B (pre ++ Json.obj fields :: post) =
        assembleMatches A B (pre ++ post)) := by
  refine ⟨?_, ?_, ?_⟩
  · intro A B pairs
    induction pairs with
    | nil =>
      intro ms hok m hm
      rw [assembleMatches] at hok
      cases hok
      exact absurd hm (List.not_mem_nil m)
    | cons p rest ih =>
      intro ms hok m hm
      cases p with
      | null => simp [assembleMatches] at hok
      | bool b => simp [assembleMatches] at hok
      | num q => simp [assembleMatches] at hok
      | str s => simp [assembleMatches] at hok
      | arr es => simp [assembleMatches] at hok
      | obj fields =>
        rw [assembleMatches] at hok
        rcases ha : resolveId (store_a_map A) (jsonGet fields "product_a_id")
            with e | _ | pa <;>
          rw [ha] at hok
        · cases hok
        · exact ih ms hok m hm
        · rcases hb : resolveId (store_b_map B) (jsonGet fields "product_b_id")
              with e2 | _ | pb <;>
            rw [hb] at hok
          · cases hok
          · exact ih ms hok m hm
          · rcases hrest : assembleMatches A B rest with err | ms'
            · rw [hrest] at hok; cases hok
            · rw [hrest] at hok
              cases hok
              rcases List.mem_cons.mp hm with rfl | hm'
              · rcases resolveId_ok_some ha with ⟨ka, hpa⟩
                rcases resolveId_ok_some hb with ⟨kb, hpb⟩
                exact ⟨store_a_map_mem hpa, store_b_map_mem hpb⟩
              · exact ih ms' hrest m hm'
  · intro A B pre post fields ha
    induction pre with
    | nil =>
      show assembleMatches A B (Json.obj fields :: post) = _
      rw [assembleMatches, ha]
      rfl
    | cons p pre ih =>
      match p with
      | .null | .bool _ | .num _ | .str _ | .arr _ => rfl
      | .obj f2 =>
        show assembleMatches A B (Json.obj f2 :: (pre ++ Json.obj fields :: post)) = _
        rw [assembleMatches]
        conv_rhs => rw [List.cons_append, assembleMatches]
        rcases resolveId (store_a_map A) (jsonGet f2 "product_a_id") with e | _ | pa2 <;>
          rcases resolveId (store_b_map B) (jsonGet f2 "product_b_id") with e2 | _ | pb2 <;>
          simp [ih]
  · intro A B pre post fields pa ha hb
    induction pre with
    | nil =>
      show assembleMatches A B (Json.obj fields :: post) = _
      rw [assembleMatches, ha, hb]
      rfl
    | cons p pre ih =>
      match p with
      | .null | .bool _ | .num _ | .str _ | .arr _ => rfl
      | .obj f2 =>
        show assembleMatches A B (Json.obj f2 :: (pre ++ Json.obj fields :: post)) = _
        rw [assembleMatches]
        conv_rhs => rw [List.cons_append, assembleMatches]
        rcases resolveId (store_a_map A) (jsonGet f2 "product_a_id") with e | _ | pa2 <;>
          rcases resolveId (store_b_map B) (jsonGet f2 "product_b_id") with e2 | _ | pb2 <;>
          simp [ih]

/-- C5 (witness): the sound assembly applied to the concrete partition: the
single assembled record resolves to the two products of the partition, and a
pair with a hallucinated store A identifier is dropped silently. -/
theorem C5_assembly_soundness_witness :
    (mkMatch exProdA exProdB).product_a ∈ [exProdA] ∧
    (mkMatch exProdA exProdB).product_b ∈ [exProdB] ∧
    assembleMatches [exProdA] [exProdB] [exGoodPair, exUnknownPair] =
      assembleMatches [exProdA] [exProdB] [exGoodPair] := by
  have h1 := C5_assembly_soundness.1 [exProdA] [exProdB] [exGoodPair]
    [mkMatch exProdA exProdB] (by with_unfolding_all rfl)
    (mkMatch exProdA exProdB) (List.mem_singleton.mpr rfl)
  refine ⟨h1.1, h1.2, ?_⟩
  have := C5_assembly_soundness.2.1 [exProdA] [exProdB] [exGoodPair] []
    [("product_a_id", Json.str "zz"), ("product_b_id", Json.str "b1")]
    (by with_unfolding_all rfl)
  simpa [exUnknownPair] using this

/-- C8: a task whose attempt body raises a transient API error on every
attempt makes exactly 3 attempts, sleeps between attempts for the doubling
backoff delays 4 and 8, resolves to the empty list, and propagates no
exception (the embedding is a total function into a value). -/
theorem C8_retry_exhaustion :
    ∀ call : ℕ → AttemptOutcome, (∀ n, call n = .transient) →
      find_matching_product_ids_for_brand call = ([], 3, [backoffWait 0, backoffWait 1])
    ∧ backoffWait 0 = 4
    ∧ (∀ n, backoffWait (n + 1) = 2 * backoffWait n) := by
  intro call h
  refine ⟨?_, rfl, ?_⟩
  · unfold find_matching_product_ids_for_brand
    rw [retryAttempts, h 0]
    norm_num
    rw [retryAttempts, h 1]
    norm_num
    rw [retryAttempts, h 2]
    norm_num [backoffWait]
  · intro n
    simp [backoffWait, pow_succ]
    ring

/-- C8 (witness): the retry theorem applied to the always-transient call. -/
theorem C8_retry_exhaustion_witness :
    find_matching_product_ids_for_brand (fun _ => .transient) = ([], 3, [4, 8]) :=
  ((C8_retry_exhaustion (fun _ => .transient) (fun _ => rfl)).1).trans (by decide)

/-- C9: the price fields of assembled match records at the P4 inputs:
prices 10.00 and 12.50 give `+$2.50` and `+25.0%`, the swapped prices give
`-$2.50` and `-20.0%`, and a zero `price_a` short-circuits the percent
computation to 0 (`+0.0%`) instead of dividing by zero (the embedding is a
total function; no division error can occur). -/
theorem C9_price_diff_formatting :
    (mkMatch exPriceA10 exPriceB125).price_diff = "+$2.50" ∧
    (mkMatch exPriceA10 exPriceB125).price_diff_percent = "+25.0%" ∧
    (mkMatch exPriceA125 exPriceB10).price_diff = "-$2.50" ∧
    (mkMatch exPriceA125 exPriceB10).price_diff_percent = "-20.0%" ∧
    (mkMatch exPriceA0 exPriceB125).price_diff_percent = "+0.0%" := by
  with_unfolding_all decide

/-- C2: the ranker returns a permutation of the validated match list that
is sorted by descending absolute numeric price difference (the parsed
magnitude of the `price_diff` field, which is what the sort key computes),
where records with equal keys keep their original relative order; on the
P7 example with absolute differences `[1, 5, 5, 2]` the output order is
the first 5, the second 5, then 2, then 1. -/
theorem C2_ranking_stable :
    (∀ l : List MatchRecord,
        List.Perm (rankMatches l) l ∧
        (rankMatches l).Pairwise (fun a b => rankKey b ≤ rankKey a) ∧
        (∀ q : ℚ, (rankMatches l).filter (fun m => decide (rankKey m = q)) =
          l.filter (fun m => decide (rankKey m = q))))
  ∧ rankMatches [exRank1, exRank5a, exRank5b, exRank2] =
      [exRank5a, exRank5b, exRank2, exRank1] := by
  constructor
  · intro l
    refine ⟨List.perm_insertionSort rankRel l, List.sorted_insertionSort rankRel l, ?_⟩
    intro q
    set p : MatchRecord → Bool := fun m => decide (rankKey m = q) with hp
    have hidem : (l.filter p).filter p = l.filter p := by
      rw [List.filter_filter]
      apply List.filter_congr
      intro a _
      simp [hp, Bool.and_self]
    have hpair : (l.filter p).Pairwise rankRel := by
      apply List.pairwise_of_forall_mem_list
      intro a ha b hb
      have ha' := (List.mem_filter.mp ha).2
      have hb' := (List.mem_filter.mp hb).2
      simp only [hp, decide_eq_true_eq] at ha' hb'
      show rankKey b ≤ rankKey a
      rw [ha', hb']
    have h1 : List.Sublist (l.filter p) (rankMatches l) :=
      List.sublist_insertionSort hpair (List.filter_sublist l)
    have h2 : List.Sublist (l.filter p) ((rankMatches l).filter p) := by
      have := h1.filter p
      rwa [hidem] at this
    have hperm : List.Perm ((rankMatches l).filter p) (l.filter p) :=
      List.Perm.filter p (List.perm_insertionSort rankRel l)
    exact (List.Sublist.eq_of_length h2 hperm.length_eq.symm).symm
  · with_unfolding_all decide

/-- C7: the protocol layer looks for the first `[` and the last `]` of the
response text; with no `[`, no `]`, an inverted bracket pair, or a failing
parse of the enclosed slice, it returns the empty array (never an error —
the embedding is total), and on a successful parse it returns exactly the
parsed value of the slice from the first `[` to the last `]` inclusive. -/
theorem C7_defensive_extraction :
    ∀ (loads : List Char → Option Json) (text : List Char),
      (text.findIdx? (fun c => c == '[') = none →
        extract_json_from_text loads text = Json.arr [])
    ∧ (text.reverse.findIdx? (fun c => c == ']') = none →
        extract_json_from_text loads text = Json.arr [])
    ∧ (∀ i j, text.findIdx? (fun c => c == '[') = some i →
        text.reverse.findIdx? (fun c => c == ']') = some j →
        text.length - 1 - j ≤ i →
        extract_json_from_text loads text = Json.arr [])
    ∧ (∀ i j, text.findIdx? (fun c => c == '[') = some i →
        text.reverse.findIdx? (fun c => c == ']') = some j →
        i < text.length - 1 - j →
        extract_json_from_text loads text =
          match loads ((text.drop i).take (text.length - 1 - j + 1 - i)) with
          | some v => v
          | none => Json.arr []) := by
  intro loads text
  refine ⟨?_, ?_, ?_, ?_⟩
  · intro h
    unfold extract_json_from_text pyFind pyRFind
    rw [h]
    have : ¬((0:ℤ) ≤ -1 ∧ (-1:ℤ) + 1 <
        (match text.reverse.findIdx? (fun c => c == ']') with
         | some i => ((text.length - 1 - i : ℕ) : ℤ)
         | none => -1) + 1) := by
      rintro ⟨h0, -⟩
      omega
    rw [if_neg this]
  · intro h
    unfold extract_json_from_text pyFind pyRFind
    rw [h]
    have : ¬((0:ℤ) ≤ (match text.findIdx? (fun c => c == '[') with
         | some i => (i : ℤ)
         | none => -1) ∧
        (match text.findIdx? (fun c => c == '[') with
         | some i => (i : ℤ)
         | none => -1) + 1 < (-1:ℤ) + 1) := by
      rintro ⟨h0, h1⟩
      omega
    rw [if_neg this]
  · intro i j hi hj hle
    unfold extract_json_from_text pyFind pyRFind
    rw [hi, hj]
    have : ¬((0:ℤ) ≤ (i:ℤ) ∧ (i:ℤ) + 1 < ((text.length - 1 - j : ℕ) : ℤ) + 1) := by
      rintro ⟨-, h1⟩
      omega
    rw [if_neg this]
  · intro i j hi hj hlt
    unfold extract_json_from_text pyFind pyRFind
    rw [hi, hj]
    have hc : (0:ℤ) ≤ (i:ℤ) ∧ (i:ℤ) + 1 < ((text.length - 1 - j : ℕ) : ℤ) + 1 := by
      constructor
      · exact_mod_cast Nat.zero_le i
      · omega
    rw [if_pos hc]
    have h1 : ((i:ℤ)).toNat = i := rfl
    have h2 : (((text.length - 1 - j : ℕ) : ℤ) + 1 - (i:ℤ)).toNat =
        text.length - 1 - j + 1 - i := by omega
    rw [h1, h2]

/-- C7 (witness): the defensive-extraction theorem applied to concrete
failing responses: text with no brackets at all, and text with an opening
bracket but no closing one, both yield the empty array. -/
theorem C7_defensive_extraction_witness :
    extract_json_from_text (fun _ => none) "no json here".toList = Json.arr [] ∧
    extract_json_from_text (fun _ => none) "response [1, 2".toList = Json.arr [] :=
  ⟨(C7_defensive_extraction (fun _ => none) "no json here".toList).1 (by decide),
   (C7_defensive_extraction (fun _ => none) "response [1, 2".toList).2.1 (by decide)⟩

/-- C4 (counterexample): the claim says an unhandled mid-run failure
always writes the accumulated matches to `<output>_error.json`.  When the
failure arrives while no match has been accumulated, the guard
`if all_matches:` skips the save and the run writes no artifact at all,
although it does end in the reported-failure state. -/
theorem C4_counterexample :
    runReportsFailure RunOutcome.failBeforeRawSave = true ∧
    pipelineWrites "match_results.json" [] RunOutcome.failBeforeRawSave = [] ∧
    (errorPath "match_results.json", ([] : List MatchRecord)) ∉
      pipelineWrites "match_results.json" [] RunOutcome.failBeforeRawSave := by
  with_unfolding_all decide

/-- C4 (amended): on an uncaught pipeline failure with at least one
accumulated match, the accumulated matches are written to the
`<output>_error.json` recovery artifact and the run ends in the
reported-failure state; with no accumulated matches no recovery artifact
is written; and on a successful run the recovery path is never written
(whenever the three artifact paths are distinct). -/
theorem C4_error_artifact :
    (∀ (output_path : String) (acc : List MatchRecord) (o : RunOutcome),
        o ≠ RunOutcome.ok → acc ≠ [] →
        (errorPath output_path, acc) ∈ pipelineWrites output_path acc o)
  ∧ (∀ o : RunOutcome, o ≠ RunOutcome.ok → runReportsFailure o = true)
  ∧ (∀ (output_path : String) (acc c : List MatchRecord),
        errorPath output_path ≠ output_path →
        errorPath output_path ≠ noCleanupPath output_path →
        (errorPath output_path, c) ∉ pipelineWrites output_path acc RunOutcome.ok) := by
  refine ⟨?_, ?_, ?_⟩
  · intro out acc o ho hacc
    have hne : acc.isEmpty = false := by
      cases acc
      · exact absurd rfl hacc
      · rfl
    cases o with
    | ok => exact absurd rfl ho
    | failBeforeRawSave => simp [pipelineWrites, hne]
    | failAfterRawSave => simp [pipelineWrites, hne]
  · intro o ho
    cases o with
    | ok => exact absurd rfl ho
    | failBeforeRawSave => rfl
    | failAfterRawSave => rfl
  · intro out acc c h1 h2 hmem
    simp only [pipelineWrites, List.mem_cons, List.mem_singleton,
      List.not_mem_nil] at hmem
    rcases hmem with h | h | h
    · exact h2 (congrArg Prod.fst h)
    · exact h1 (congrArg Prod.fst h)
    · exact h

/-- C4 (witness): the amended theorem at the concrete output path: a
failure with one accumulated match writes it to
`match_results_error.json`, and a successful run never touches that path. -/
theorem C4_error_artifact_witness :
    (errorPath "match_results.json", [exRank1]) ∈
      pipelineWrites "match_results.json" [exRank1] RunOutcome.failBeforeRawSave ∧
    (errorPath "match_results.json", [exRank1]) ∉
      pipelineWrites "match_results.json" [] RunOutcome.ok :=
  ⟨C4_error_artifact.1 "match_results.json" [exRank1] RunOutcome.failBeforeRawSave
      (by decide) (by simp),
   C4_error_artifact.2.2 "match_results.json" [] [exRank1]
      (by with_unfolding_all decide) (by with_unfolding_all decide)⟩

/-- Pointwise description of the store A grouping loop: starting from any
dictionary, the entry at `b` gains exactly the store A products of brand
`b` in input order. -/
theorem foldA_apply (l : List Product) :
    ∀ (m0 : Brand → Option BrandGroup) (b : Brand),
      (l.foldl addStoreA m0) b =
        match m0 b with
        | some g =>
            some ⟨g.store_a_products ++ l.filter (fun p => p.brand == b),
                  g.store_b_products⟩
        | none =>
            if l.filter (fun p => p.brand == b) = [] then none
            else some ⟨l.filter (fun p => p.brand == b), []⟩ := by
  induction l with
  | nil =>
    intro m0 b
    cases h : m0 b <;> simp [h]
  | cons p t ih =>
    intro m0 b
    rw [List.foldl_cons, ih]
    cases hpb : (p.brand == b) with
    | true =>
      have hb : p.brand = b := by simpa using hpb
      subst hb
      cases hm : m0 p.brand with
      | some g =>
        have ha : addStoreA m0 p p.brand =
            some ⟨g.store_a_products ++ [p], g.store_b_products⟩ := by
          simp [addStoreA, hm]
        rw [ha]
        simp [List.filter_cons, List.append_assoc]
      | none =>
        have ha : addStoreA m0 p p.brand = some ⟨[p], []⟩ := by
          simp [addStoreA, hm]
        rw [ha]
        simp [List.filter_cons]
    | false =>
      have hb : ¬(b = p.brand) := by
        intro h
        rw [h] at hpb
        simp at hpb
      have ha : addStoreA m0 p b = m0 b := by
        simp [addStoreA, hb]
      rw [ha]
      simp [List.filter_cons, hpb]

/-- Pointwise description of the dictionary after the store B loop: keys
are unchanged and each present entry gains the store B products of its
brand in input order. -/
theorem foldB_map (l : List Product) :
    ∀ (st : PartitionState) (b : Brand),
      (l.foldl addStoreB st).map b =
        match st.map b with
        | some g => some ⟨g.store_a_products,
            g.store_b_products ++ l.filter (fun p => p.brand == b)⟩
        | none => none := by
  induction l with
  | nil =>
    intro st b
    cases h : st.map b <;> simp [h]
  | cons p t ih =>
    intro st b
    rw [List.foldl_cons, ih]
    cases hm : st.map p.brand with
    | none =>
      have hst : addStoreB st p = st := by simp [addStoreB, hm]
      rw [hst]
      cases hpb : (p.brand == b) with
      | true =>
        have hb : p.brand = b := by simpa using hpb
        subst hb
        simp [hm]
      | false =>
        simp [List.filter_cons, hpb]
    | some g =>
      cases hpb : (p.brand == b) with
      | true =>
        have hb : p.brand = b := by simpa using hpb
        subst hb
        have hmap : (addStoreB st p).map p.brand =
            some ⟨g.store_a_products, g.store_b_products ++ [p]⟩ := by
          simp [addStoreB, hm]
        rw [hmap]
        simp [List.filter_cons, List.append_assoc, hm]
      | false =>
        have hb : ¬(b = p.brand) := by
          intro h
          rw [h] at hpb
          simp at hpb
        have hmap : (addStoreB st p).map b = st.map b := by
          simp [addStoreB, hm, hb]
        rw [hmap]
        simp [List.filter_cons, hpb]

/-- Pointwise description of `matching_brands` after the store B loop: a
brand is matching when it already was, or when its entry existed with an
empty store B list and some store B product carries it. -/
theorem foldB_matching (l : List Product) :
    ∀ (st : PartitionState) (b : Brand),
      (l.foldl addStoreB st).matching b =
        (st.matching b ||
          ((match st.map b with
            | some g => g.store_b_products.isEmpty
            | none => false) &&
           !(l.filter (fun p => p.brand == b)).isEmpty)) := by
  induction l with
  | nil =>
    intro st b
    cases h : st.map b <;> simp [h]
  | cons p t ih =>
    intro st b
    rw [List.foldl_cons, ih]
    cases hm : st.map p.brand with
    | none =>
      have hst : addStoreB st p = st := by simp [addStoreB, hm]
      rw [hst]
      cases hpb : (p.brand == b) with
      | true =>
        have hb : p.brand = b := by simpa using hpb
        subst hb
        simp [hm]
      | false =>
        simp [List.filter_cons, hpb]
    | some g =>
      cases hpb : (p.brand == b) with
      | true =>
        have hb : p.brand = b := by simpa using hpb
        subst hb
        have hmap : (addStoreB st p).map p.brand =
            some ⟨g.store_a_products, g.store_b_products ++ [p]⟩ := by
          simp [addStoreB, hm]
        have hmat : (addStoreB st p).matching p.brand =
            (if g.store_b_products = [] then true else st.matching p.brand) := by
          simp [addStoreB, hm]
        rw [hmap, hmat]
        cases hgb : g.store_b_products with
        | nil => simp [List.filter_cons, hgb, hm]
        | cons x xs => simp [List.filter_cons, hgb, hm]
      | false =>
        have hb : ¬(b = p.brand) := by
          intro h
          rw [h] at hpb
          simp at hpb
        have hmap : (addStoreB st p).map b = st.map b := by
          simp [addStoreB, hm, hb]
        have hmat : (addStoreB st p).matching b = st.matching b := by
          simp [addStoreB, hm, hb]
        rw [hmap, hmat]
        simp [List.filter_cons, hpb]

/-- Closed form of the partitioner: a brand is emitted exactly when both
stores carry it, with the two filtered (input-ordered) product lists. -/
theorem overlap_apply (A B : List Product) (b : Brand) :
    get_overlapping_brands_and_their_products A B b =
      if A.filter (fun p => p.brand == b) ≠ [] ∧
         B.filter (fun p => p.brand == b) ≠ [] then
        some ⟨A.filter (fun p => p.brand == b), B.filter (fun p => p.brand == b)⟩
      else none := by
  simp only [get_overlapping_brands_and_their_products]
  rw [foldB_matching, foldB_map]
  simp only [groupStoreA]
  rw [foldA_apply]
  by_cases hA : A.filter (fun p => p.brand == b) = []
  · simp [hA]
  · by_cases hB : B.filter (fun p => p.brand == b) = []
    · simp [hA, hB]
    · simp [hA, hB]

/-- A brand-`b` filter is non-empty exactly when some product of the list
carries brand `b`. -/
theorem filter_brand_ne_nil_iff (L : List Product) (b : Brand) :
    L.filter (fun p => p.brand == b) ≠ [] ↔ ∃ p ∈ L, p.brand = b := by
  constructor
  · intro h
    rcases List.exists_mem_of_ne_nil _ h with ⟨p, hp⟩
    have hm := List.mem_filter.mp hp
    exact ⟨p, hm.1, by simpa using hm.2⟩
  · rintro ⟨p, hp, hb2⟩
    exact List.ne_nil_of_mem (List.mem_filter.mpr ⟨hp, by simp [hb2]⟩)

/-- C6: a brand appears in the partitioner output exactly when at least
one store A product and at least one store B product carry it (no only-A
or only-B brand is emitted), and each emitted partition holds the products
of that brand from both stores in input (insertion) order. -/
theorem C6_partition_restriction :
    ∀ (A B : List Product) (b : Brand),
      ((get_overlapping_brands_and_their_products A B b).isSome ↔
        (∃ p ∈ A, p.brand = b) ∧ (∃ p ∈ B, p.brand = b))
    ∧ (∀ g, get_overlapping_brands_and_their_products A B b = some g →
        g.store_a_products = A.filter (fun p => p.brand == b) ∧
        g.store_b_products = B.filter (fun p => p.brand == b)) := by
  intro A B b
  have h := overlap_apply A B b
  constructor
  · rw [h]
    split_ifs with hcond
    · constructor
      · intro _
        exact ⟨(filter_brand_ne_nil_iff A b).mp hcond.1,
               (filter_brand_ne_nil_iff B b).mp hcond.2⟩
      · intro _
        rfl
    · constructor
      · intro hs
        exact absurd hs (by simp)
      · rintro ⟨hA, hB⟩
        exact absurd ⟨(filter_brand_ne_nil_iff A b).mpr hA,
                      (filter_brand_ne_nil_iff B b).mpr hB⟩ hcond
  · intro g hg
    rw [h] at hg
    split_ifs at hg with hcond
    cases hg
    exact ⟨rfl, rfl⟩

/-- C6 (witness): the partition theorem at a concrete pair of catalogs:
the shared brand is emitted with both product lists, and the one-store
brand is absent. -/
theorem C6_partition_restriction_witness :
    (get_overlapping_brands_and_their_products [exProdA] [exProdB]
      (some "ACME")).isSome = true ∧
    (⟨[exProdA], [exProdB]⟩ : BrandGroup).store_a_products =
      [exProdA].filter (fun p => p.brand == some "ACME") :=
  ⟨(C6_partition_restriction [exProdA] [exProdB] (some "ACME")).1.mpr
      ⟨⟨exProdA, List.mem_singleton.mpr rfl, rfl⟩,
       ⟨exProdB, List.mem_singleton.mpr rfl, rfl⟩⟩,
   ((C6_partition_restriction [exProdA] [exProdB] (some "ACME")).2
      ⟨[exProdA], [exProdB]⟩ (by with_unfolding_all decide)).1⟩

/-- C3: a record with an absent brand is neither excluded nor fatal for
brand partitioning: the grouping phase puts every record, whatever its
brand value, into the group of its own brand key (a total function — no
failure path); the store A normalizer maps an absent brand to the explicit
sentinel `"N/A"`; and a sentinel key differs from every genuinely matched
brand key (`None` differs from every string; `"N/A"` differs from every
normalized brand other than the n/a-variants themselves). -/
theorem C3_missing_brand_not_excluded :
    (∀ (A : List Product) (p : Product), p ∈ A →
        ∃ g, groupStoreA A p.brand = some g ∧ p ∈ g.store_a_products)
  ∧ normalize_brand_a none = "N/A"
  ∧ (∀ s : String, (some s : Brand) ≠ (none : Brand))
  ∧ (∀ b : String, pyUpper (pyStripQuotes b) ≠ "N/A" →
      normalize_brand_a (some b) ≠ normalize_brand_a none) := by
  refine ⟨?_, rfl, fun s => Option.some_ne_none s, fun b h => h⟩
  intro A p hp
  have hpf : p ∈ A.filter (fun q => q.brand == p.brand) :=
    List.mem_filter.mpr ⟨hp, by simp⟩
  have hne : A.filter (fun q => q.brand == p.brand) ≠ [] := List.ne_nil_of_mem hpf
  unfold groupStoreA
  rw [foldA_apply]
  exact ⟨⟨A.filter (fun q => q.brand == p.brand), []⟩, by simp [hne], hpf⟩

/-- C3 (witness): the no-exclusion theorem applied to a concrete record
with brand `None`: it is grouped, under the `None` key. -/
theorem C3_missing_brand_not_excluded_witness :
    ∃ g, groupStoreA [exProdNoBrand] exProdNoBrand.brand = some g ∧
      exProdNoBrand ∈ g.store_a_products :=
  C3_missing_brand_not_excluded.1 [exProdNoBrand] exProdNoBrand
    (List.mem_singleton.mpr rfl)

end BetterBasket
